import Mathlib

/-!
Verification of the client-side runtime of the `my-blog` repository.

The repository's core is a small client-side navigation layer:

* `getClienPageAheadOfTime` (src/shared.ts, src/unnamed/part_002) fetches a
  page, parses it, and returns `appendExtraStyles` / `replaceBody` closures;
* delegated `mouseover` and `click` listeners (src/unnamed/part_002,
  `appendListeners`) drive prefetch-on-hover and in-place navigation;
* `StatefulObserver` (src/unnamed/part_006) is a single-value observable;
* the first-interaction module (src/unnamed/part_004) layers a fire-once
  signal on top of it;
* `addScriptToHead` (src/unnamed/part_005) loads an external script.

The development below is a shallow embedding of that code.  DOM nodes are
identified by natural numbers (object identity), a document head is the list
of its child nodes in document order, and the browser side effects of the
event handlers (preventDefault, history pushes, body replacement, style
insertion, cleanup invocation) are recorded as explicit effect traces.
Asynchronous failure (a rejected promise) is modelled with `Except`.
-/

/-- A DOM node, identified by its object identity. -/
abbrev Node := Nat

/-- `parent.appendChild(n)`: if `n` is already a child it is moved; the node
always ends up as the last child.  (DOM `appendChild` semantics.) -/
def appendChild (head : List Node) (n : Node) : List Node :=
  head.erase n ++ [n]

/-- Run the rollback closure returned by `appendExtraStyles`:
`extraStyles.forEach(value => targetDocument.head.removeChild(value))`.
DOM `removeChild` throws `NotFoundError` when the argument is not a child,
which aborts the `forEach`; the `Bool` records whether the run threw, and the
returned list is the head after the removals that did happen. -/
def runRollback (targetHead : List Node) (styles : List Node) : List Node × Bool :=
  match styles with
  | [] => (targetHead, false)
  | n :: rest =>
    if n ∈ targetHead then runRollback (targetHead.erase n) rest
    else (targetHead, true)

/-- The document produced by `parser.parseFromString(rawHTML, "text/html")`,
reduced to what the source reads from it: `head.querySelectorAll('style')`
(the style elements of the head, in source order) and the `body` node. -/
structure ParsedDoc where
  headStyles : List Node
  bodyNode : Node
deriving DecidableEq

/-- The injected `DOMParser` collaborator (the source passes a parser object
to `getClienPageAheadOfTime`). -/
structure DOMParser where
  parseFromString : String → ParsedDoc

/-- The observable part of a `fetch` response: its status code and the text
produced by `response.text()`. -/
structure FetchResponse where
  status : Nat
  bodyText : String
deriving DecidableEq

/-- Outcome of `await fetch(url)`: the promise either rejects (transport
failure) or resolves with a response — note that a non-success HTTP status
still RESOLVES the fetch promise. -/
inductive FetchOutcome where
  | rejected
  | resolved (response : FetchResponse)
deriving DecidableEq

/-- The value resolved by `getClienPageAheadOfTime`: the captured
`extraStyles` node list and the fetched body node (the closures
`appendExtraStyles` / `replaceBody` close over exactly these). -/
structure PrefetchResult where
  extraStyles : List Node
  fetchedBody : Node
deriving DecidableEq

/-- Shallow embedding of `getClienPageAheadOfTime` (src/unnamed/part_002
lines 83-112): awaits the fetch — a rejection propagates, and the response
status is never examined — then parses the body text and returns the
captured style/body data.  `Except.error` models the rejected promise. -/
def getClienPageAheadOfTime (fetchOutcome : FetchOutcome) (parser : DOMParser) :
    Except Unit PrefetchResult :=
  match fetchOutcome with
  | .rejected => .error ()
  | .resolved r =>
    let parsed := parser.parseFromString r.bodyText
    .ok { extraStyles := parsed.headStyles, fetchedBody := parsed.bodyNode }

/-- Whether an HTTP status is a success status (2xx). -/
def isSuccessStatus (status : Nat) : Bool :=
  200 ≤ status && status < 300

/-- The spec's description of `prefetch(url)`, written for comparison with
the source's `getClienPageAheadOfTime`: "fails with a NetworkError if the
fetch rejects or returns a non-success status ... and otherwise parses the
response body as HTML". -/
def prefetchAsSpecified (fetchOutcome : FetchOutcome) (parser : DOMParser) :
    Except Unit PrefetchResult :=
  match fetchOutcome with
  | .rejected => .error ()
  | .resolved r =>
    if isSuccessStatus r.status then
      let parsed := parser.parseFromString r.bodyText
      .ok { extraStyles := parsed.headStyles, fetchedBody := parsed.bodyNode }
    else .error ()

/-- `appendExtraStyles(targetDocument)`: appends every captured style node to
the target head (in source order) and returns the rollback closure, which is
fully described by the captured style list (`runRollback` gives its
semantics against a later head). -/
def appendExtraStyles (extraStyles : List Node) (targetHead : List Node) :
    List Node × List Node :=
  (extraStyles.foldl appendChild targetHead, extraStyles)

/-- Appending nodes that are fresh for the target head is a plain
concatenation. -/
theorem foldl_appendChild_of_fresh (extraStyles : List Node) :
    ∀ targetHead : List Node, extraStyles.Nodup →
      (∀ n ∈ extraStyles, n ∉ targetHead) →
      extraStyles.foldl appendChild targetHead = targetHead ++ extraStyles := by
  induction extraStyles with
  | nil => intro h _ _; simp
  | cons a t ih =>
    intro h hnd hfresh
    have ha : a ∉ h := hfresh a (by simp)
    have step : appendChild h a = h ++ [a] := by
      unfold appendChild
      rw [List.erase_of_not_mem ha]
    have hnd' : t.Nodup := (List.nodup_cons.mp hnd).2
    have hat : a ∉ t := (List.nodup_cons.mp hnd).1
    have hfresh' : ∀ n ∈ t, n ∉ h ++ [a] := by
      intro n hn
      simp only [List.mem_append, List.mem_singleton]
      push_neg
      refine ⟨hfresh n (by simp [hn]), ?_⟩
      intro hna
      exact hat (hna ▸ hn)
    calc (a :: t).foldl appendChild h
        = t.foldl appendChild (appendChild h a) := rfl
      _ = t.foldl appendChild (h ++ [a]) := by rw [step]
      _ = (h ++ [a]) ++ t := ih (h ++ [a]) hnd' hfresh'
      _ = h ++ a :: t := by simp

/-- Removing freshly appended nodes restores the original head exactly and
does not throw. -/
theorem runRollback_append (extraStyles : List Node) :
    ∀ targetHead : List Node, extraStyles.Nodup →
      (∀ n ∈ extraStyles, n ∉ targetHead) →
      runRollback (targetHead ++ extraStyles) extraStyles = (targetHead, false) := by
  induction extraStyles with
  | nil => intro h _ _; simp [runRollback]
  | cons a t ih =>
    intro h hnd hfresh
    have ha : a ∉ h := hfresh a (by simp)
    have hmem : a ∈ h ++ a :: t := by simp
    have herase : (h ++ a :: t).erase a = h ++ t := by
      rw [List.erase_append_right _ ha]
      simp [List.erase_cons_head]
    have hnd' : t.Nodup := (List.nodup_cons.mp hnd).2
    have hat : a ∉ t := (List.nodup_cons.mp hnd).1
    have hfresh' : ∀ n ∈ t, n ∉ h := fun n hn => hfresh n (by simp [hn])
    unfold runRollback
    simp only [hmem, if_pos, herase]
    exact ih h hnd' hfresh'

/-- When the first style node is no longer a child, the rollback throws at
once and leaves the head untouched. -/
theorem runRollback_missing_head (targetHead : List Node) (a : Node) (t : List Node)
    (ha : a ∉ targetHead) :
    runRollback targetHead (a :: t) = (targetHead, true) := by
  unfold runRollback
  simp [ha]

/-- The data an event handler reads off an anchor element: its `href`, the
`data-client-navigation` marker (`target.dataset.clientNavigation`), and the
augmentation installed by a successful hover prefetch
(`hasExtraMethods` plus the assigned methods, which close over a
`PrefetchResult`). -/
structure AnchorData where
  href : String
  clientNavigation : Option String
  cached : Option PrefetchResult
deriving DecidableEq

/-- `event.target` as the delegated listeners see it: either not an
`HTMLAnchorElement` or an anchor with its data. -/
inductive EventTarget where
  | notAnchor
  | anchor (a : AnchorData)
deriving DecidableEq

/-- Shallow embedding of the delegated `mouseover` listener
(src/unnamed/part_002 lines 120-136).  Returns the target after the handler
(`Object.assign(target, methods)` is the only mutation) together with the
settlement of the async handler's promise: the listener has no try/catch, so
a rejected `getClienPageAheadOfTime` rejects the handler's own promise,
modelled as `Except.error`. -/
def mouseoverHandler (target : EventTarget) (parser : DOMParser)
    (fetchOutcome : FetchOutcome) : EventTarget × Except Unit Unit :=
  match target with
  | .notAnchor => (target, .ok ())
  | .anchor a =>
    if a.cached.isSome then (target, .ok ())
    else if a.clientNavigation ≠ some "hover" then (target, .ok ())
    else
      match getClienPageAheadOfTime fetchOutcome parser with
      | .error e => (target, .error e)
      | .ok methods => (.anchor { a with cached := some methods }, .ok ())

/-- The browser-visible side effects the click listener can perform, in the
order it performs them. -/
inductive Effect where
  | preventDefault
  | cleanupInvoked
  | styleAppended (n : Node)
  | bodyReplaced (b : Node)
  | historyPush (url : String)
deriving DecidableEq

/-- Recognize a `history.pushState` effect. -/
def Effect.isPush : Effect → Bool
  | .historyPush _ => true
  | _ => false

/-- Recognize a body-replacement effect. -/
def Effect.isBodyReplace : Effect → Bool
  | .bodyReplaced _ => true
  | _ => false

/-- Recognize an invocation of a pending style-cleanup function. -/
def Effect.isCleanup : Effect → Bool
  | .cleanupInvoked => true
  | _ => false

/-- The page-level mutable state the click listener touches: the document
head and body, the module-level `currentCleanUp` slot (`none` models the
initial `undefined`; the stored closure is determined by the style nodes it
captured), and the session history (list of pushed URLs). -/
structure PageState where
  head : List Node
  body : Node
  currentCleanUp : Option (List Node)
  history : List String
deriving DecidableEq

/-- The click listener's resolution of the prefetch methods: the cached
augmentation when `hasExtraMethods` is set, otherwise a fresh
`await getClienPageAheadOfTime(target.href, parser)`. -/
def resolvePrefetch (a : AnchorData) (fetchOutcome : FetchOutcome)
    (parser : DOMParser) : Except Unit PrefetchResult :=
  match a.cached with
  | some pr => .ok pr
  | none => getClienPageAheadOfTime fetchOutcome parser

/-- Result of one run of the click listener: the page state afterwards, the
trace of browser effects in the order they happened, and whether the async
handler's promise rejected. -/
structure ClickResult where
  state : PageState
  trace : List Effect
  rejected : Bool
deriving DecidableEq

/-- The tail of the click listener once the prefetch result is in hand:
`currentCleanUp = appendExtraStyles(); replaceBody();
history.pushState(null, '', target.href)`. -/
def finishNavigation (a : AnchorData) (pr : PrefetchResult) (st : PageState)
    (acc : List Effect) : ClickResult :=
  let applied := appendExtraStyles pr.extraStyles st.head
  { state := { head := applied.1, body := pr.fetchedBody,
               currentCleanUp := some applied.2,
               history := st.history ++ [a.href] },
    trace := acc ++ pr.extraStyles.map Effect.styleAppended
               ++ [Effect.bodyReplaced pr.fetchedBody, Effect.historyPush a.href],
    rejected := false }

/-- Shallow embedding of the delegated `click` listener (src/unnamed/part_002
lines 138-167).  Ignores non-anchors and anchors whose marker is neither
`"click"` nor `"hover"`; otherwise: `preventDefault()`, resolve the prefetch
(cached or fresh — a rejection rejects the handler after `preventDefault`),
invoke the previous cleanup if one is stored (its `removeChild` calls can
throw, aborting the handler with the head partially restored and the old
cleanup still stored), store the new rollback, replace the body, and push
the href onto the history. -/
def clickHandler (target : EventTarget) (parser : DOMParser)
    (fetchOutcome : FetchOutcome) (st : PageState) : ClickResult :=
  match target with
  | .notAnchor => { state := st, trace := [], rejected := false }
  | .anchor a =>
    if a.clientNavigation ≠ some "click" ∧ a.clientNavigation ≠ some "hover" then
      { state := st, trace := [], rejected := false }
    else
      match resolvePrefetch a fetchOutcome parser with
      | .error _ => { state := st, trace := [Effect.preventDefault], rejected := true }
      | .ok pr =>
        match st.currentCleanUp with
        | none => finishNavigation a pr st [Effect.preventDefault]
        | some oldStyles =>
          let cleaned := runRollback st.head oldStyles
          if cleaned.2 then
            { state := { st with head := cleaned.1 },
              trace := [Effect.preventDefault, Effect.cleanupInvoked],
              rejected := true }
          else
            finishNavigation a pr { st with head := cleaned.1 }
              [Effect.preventDefault, Effect.cleanupInvoked]

/-- Shallow embedding of `StatefulObserver<S>` (src/unnamed/part_006).
Callbacks are opaque identities (`Nat`); `subscribers` is the insertion-order
view of the JS `Set` (an element is added at most once).  Invocations of
callbacks are returned as explicit traces of `(callback, value)` pairs. -/
structure StatefulObserver (S : Type) where
  state : S
  subscribers : List Nat
deriving DecidableEq

/-- `getState()`. -/
def StatefulObserver.getState {S : Type} (obs : StatefulObserver S) : S :=
  obs.state

/-- `subscribe(callback)`: adds the callback to the set and immediately
invokes it once with the current state.  The trace component is the list of
invocations performed during the call. -/
def StatefulObserver.subscribe {S : Type} (obs : StatefulObserver S) (c : Nat) :
    StatefulObserver S × List (Nat × S) :=
  ({ obs with
      subscribers :=
        if c ∈ obs.subscribers then obs.subscribers else obs.subscribers ++ [c] },
   [(c, obs.state)])

/-- `unsubscribe(callback)`: `Set.delete` — removes the callback if present. -/
def StatefulObserver.unsubscribe {S : Type} (obs : StatefulObserver S) (c : Nat) :
    StatefulObserver S :=
  { obs with subscribers := obs.subscribers.erase c }

/-- `notify(newState)`: suppressed when `newState === this.state`; otherwise
updates the state and invokes every current subscriber with the new state. -/
def StatefulObserver.notify {S : Type} [DecidableEq S] (obs : StatefulObserver S)
    (newState : S) : StatefulObserver S × List (Nat × S) :=
  if newState = obs.state then (obs, [])
  else ({ obs with state := newState },
        obs.subscribers.map fun c => (c, newState))

/-- Run a sequence of `notify` calls, concatenating the invocation traces. -/
def StatefulObserver.runNotifies {S : Type} [DecidableEq S]
    (obs : StatefulObserver S) : List S → StatefulObserver S × List (Nat × S)
  | [] => (obs, [])
  | v :: rest =>
    let step := obs.notify v
    let next := step.1.runNotifies rest
    (next.1, step.2 ++ next.2)

/-- The values a given callback receives in an invocation trace. -/
def receivedBy {S : Type} (c : Nat) (trace : List (Nat × S)) : List S :=
  (trace.filter fun p => p.1 == c).map Prod.snd

/-- The subsequence of a value sequence at which the running value actually
changes, starting from `prev` — exactly the notifications the spec says a
subscriber must receive. -/
def changesFrom {S : Type} [DecidableEq S] (prev : S) : List S → List S
  | [] => []
  | v :: vs => if v = prev then changesFrom prev vs else v :: changesFrom v vs

/-- `receivedBy` over a broadcast to a subscriber list containing `c` exactly
once yields the single broadcast value. -/
theorem receivedBy_map_pair {S : Type} (c : Nat) (v : S) :
    ∀ l : List Nat, receivedBy c (l.map fun d => (d, v)) = List.replicate (l.count c) v := by
  intro l
  induction l with
  | nil => simp [receivedBy]
  | cons a t ih =>
    by_cases hac : a = c
    · subst hac
      simp only [receivedBy, List.map_cons, List.filter_cons] at ih ⊢
      simp [List.count_cons, ih, List.replicate_succ, receivedBy]
    · simp only [receivedBy, List.map_cons, List.filter_cons] at ih ⊢
      have : (a == c) = false := by simp [hac]
      simp [this, List.count_cons, hac, ih, receivedBy]

/-- `notify` never changes the subscriber set. -/
theorem StatefulObserver.notify_subscribers {S : Type} [DecidableEq S]
    (obs : StatefulObserver S) (v : S) :
    (obs.notify v).1.subscribers = obs.subscribers := by
  unfold StatefulObserver.notify
  by_cases h : v = obs.state <;> simp [h]

/-- Over any sequence of `notify` calls, a subscriber present exactly once
receives precisely the values at which the state changes. -/
theorem receivedBy_runNotifies {S : Type} [DecidableEq S] (c : Nat) (vs : List S) :
    ∀ obs : StatefulObserver S, obs.subscribers.count c = 1 →
      receivedBy c (obs.runNotifies vs).2 = changesFrom obs.state vs := by
  induction vs with
  | nil => intro obs _; simp [StatefulObserver.runNotifies, receivedBy, changesFrom]
  | cons v rest ih =>
    intro obs hc
    unfold StatefulObserver.runNotifies
    by_cases hv : v = obs.state
    · have hnot : obs.notify v = (obs, []) := by
        unfold StatefulObserver.notify
        simp [hv]
      simp only [hnot]
      have := ih obs hc
      simp [receivedBy, changesFrom, hv, this]
      simpa [receivedBy] using this
    · have hnot : obs.notify v
          = ({ obs with state := v }, obs.subscribers.map fun d => (d, v)) := by
        unfold StatefulObserver.notify
        simp [hv]
      simp only [hnot]
      have hrec := ih { obs with state := v } (by simpa using hc)
      have hmap := receivedBy_map_pair c v obs.subscribers
      simp only [receivedBy, List.filter_append, List.map_append] at *
      rw [changesFrom]
      simp [hv, hmap, hc, hrec, List.replicate]

/-- The five qualifying interaction event kinds of src/unnamed/part_004. -/
inductive EventKind where
  | click
  | scroll
  | keydown
  | mousemove
  | touchstart
deriving DecidableEq

/-- The `events` array of src/unnamed/part_004, in source order. -/
def interactionEvents : List EventKind :=
  [.click, .scroll, .keydown, .mousemove, .touchstart]

/-- State of the first-interaction module: the `interactionObserver`
(a `StatefulObserver Bool`, subscribers being the wrappers created by
`onFirstInteraction`), the event kinds for which the `trigger` listener is
currently attached to the window, and the trace of user callbacks fired so
far (a callback is identified with its wrapper). -/
structure FIState where
  obs : StatefulObserver Bool
  window : List EventKind
  fired : List Nat
deriving DecidableEq

/-- The module state right after src/unnamed/part_004 loads: observer state
`false`, no subscribers, and — since `getState() === false` — the `trigger`
listener attached for all five event kinds. -/
def initialFI : FIState :=
  { obs := { state := false, subscribers := [] },
    window := interactionEvents,
    fired := [] }

/-- Shallow embedding of `trigger` (src/unnamed/part_004): first
`interactionObserver.notify(true)` — each wrapper invoked with `true` runs
its user callback and then unsubscribes itself (self-deletion during a JS
`Set.forEach` is safe, so every pre-existing subscriber is still visited) —
then `removeEventListener` for every kind in the event set. -/
def trigger (st : FIState) : FIState :=
  let step := st.obs.notify true
  let firedNow := ((step.2.filter fun p => p.2 == true).map Prod.fst)
  { obs := firedNow.foldl StatefulObserver.unsubscribe step.1,
    window := st.window.filter fun k => !(interactionEvents.contains k),
    fired := st.fired ++ firedNow }

/-- Dispatching a window event of kind `k`: runs `trigger` exactly when the
listener for `k` is still attached. -/
def dispatchEvent (k : EventKind) (st : FIState) : FIState :=
  if k ∈ st.window then trigger st else st

/-- Shallow embedding of `onFirstInteraction(callback)`
(src/unnamed/part_004 lines 31-39).  `subscribe` adds the wrapper and
invokes it synchronously with the current state; when that state is already
`true` the wrapper fires the user callback and then hits the
`const unsubscribe` binding before its initialization — a `ReferenceError`,
returned as the `Bool` (registration threw); the wrapper then stays
subscribed.  When the state is `false` the immediate invocation does
nothing. -/
def onFirstInteraction (c : Nat) (st : FIState) : FIState × Bool :=
  let sub := st.obs.subscribe c
  if st.obs.state then
    ({ st with obs := sub.1, fired := st.fired ++ [c] }, true)
  else
    ({ st with obs := sub.1 }, false)

/-- The operations that can hit the first-interaction module after load. -/
inductive FIOp where
  | register (c : Nat)
  | dispatch (k : EventKind)
deriving DecidableEq

/-- Apply one operation. -/
def applyFIOp (st : FIState) : FIOp → FIState
  | .register c => (onFirstInteraction c st).1
  | .dispatch k => dispatchEvent k st

/-- Run a sequence of operations. -/
def runFIOps (st : FIState) (ops : List FIOp) : FIState :=
  ops.foldl applyFIOp st

/-- `true` when the operation list never registers callback `c`. -/
def avoidsRegister (c : Nat) : List FIOp → Bool
  | [] => true
  | .register d :: rest => d != c && avoidsRegister c rest
  | .dispatch _ :: rest => avoidsRegister c rest

/-- Every event kind is in the interaction event set, so the removal filter
empties the listener list. -/
theorem window_filter_empty (l : List EventKind) :
    (l.filter fun k => !(interactionEvents.contains k)) = [] := by
  induction l with
  | nil => rfl
  | cons a t ih =>
    have ha : a ∈ interactionEvents := by cases a <;> simp [interactionEvents]
    have hfalse : (!(interactionEvents.contains a)) = false := by simp [ha]
    simp only [List.filter_cons, hfalse]
    simpa using ih

/-- Folding `unsubscribe` erases from the subscriber list and keeps the
state. -/
theorem foldl_unsubscribe {S : Type} (l : List Nat) :
    ∀ obs : StatefulObserver S,
      l.foldl StatefulObserver.unsubscribe obs
        = { obs with subscribers := l.foldl List.erase obs.subscribers } := by
  induction l with
  | nil => intro obs; rfl
  | cons a t ih =>
    intro obs
    simp only [List.foldl_cons]
    rw [ih]
    rfl

/-- Erasures never increase the count of an element. -/
theorem count_foldl_erase_le (c : Nat) (l : List Nat) :
    ∀ l₀ : List Nat, (l.foldl List.erase l₀).count c ≤ l₀.count c := by
  induction l with
  | nil => intro l₀; simp
  | cons a t ih =>
    intro l₀
    refine le_trans (ih (l₀.erase a)) ?_
    by_cases hac : a = c
    · subst hac
      rw [List.count_erase_self]
      omega
    · rw [List.count_erase_of_ne (fun h => hac h.symm)]

/-- Erasing a list that contains `c` from a list in which `c` occurs exactly
once removes every occurrence of `c`. -/
theorem count_foldl_erase_of_mem (c : Nat) (l : List Nat) :
    ∀ l₀ : List Nat, c ∈ l → l₀.count c = 1 →
      (l.foldl List.erase l₀).count c = 0 := by
  induction l with
  | nil => intro l₀ h _; cases h
  | cons a t ih =>
    intro l₀ hmem hone
    by_cases hac : a = c
    · subst hac
      have hz : (l₀.erase a).count a = 0 := by
        rw [List.count_erase_self, hone]
      have hle := count_foldl_erase_le a t (l₀.erase a)
      rw [List.foldl_cons]
      omega
    · have hmem' : c ∈ t := by
        cases hmem with
        | head => exact absurd rfl hac
        | tail _ h => exact h
      have : (l₀.erase a).count c = 1 := by
        rw [List.count_erase_of_ne (fun h => hac h.symm)]
        exact hone
      exact ih (l₀.erase a) hmem' this

/-- Erasing a list not containing `c` leaves the count of `c` unchanged. -/
theorem count_foldl_erase_of_not_mem (c : Nat) (l : List Nat) :
    ∀ l₀ : List Nat, c ∉ l → (l.foldl List.erase l₀).count c = l₀.count c := by
  induction l with
  | nil => intro l₀ _; rfl
  | cons a t ih =>
    intro l₀ hnot
    have hac : a ≠ c := fun h => hnot (h ▸ List.mem_cons_self a t)
    have hnt : c ∉ t := fun h => hnot (List.mem_cons_of_mem a h)
    rw [List.foldl_cons, ih (l₀.erase a) hnt,
      List.count_erase_of_ne (fun h => hac h.symm)]

/-- Broadcasting `true` and keeping the senders: filtering on the `true`
component recovers the original list. -/
theorem map_pair_filter_true (l : List Nat) :
    (((l.map fun c => (c, true)).filter fun p => p.2 == true).map Prod.fst) = l := by
  induction l with
  | nil => rfl
  | cons a t ih =>
    simp only [List.map_cons, List.filter_cons,
      show ((a, true).2 == true) = true from rfl, if_true]
    rw [ih]

/-- `trigger` on a not-yet-interacted state: the observer flips to `true`,
every subscribed wrapper fires once (in subscription order) and unsubscribes
itself, and all window listeners are removed. -/
theorem trigger_of_false (st : FIState) (h : st.obs.state = false) :
    trigger st
      = { obs := { state := true,
                   subscribers :=
                     st.obs.subscribers.foldl List.erase st.obs.subscribers },
          window := [],
          fired := st.fired ++ st.obs.subscribers } := by
  unfold trigger
  have hnot : st.obs.notify true
      = ({ st.obs with state := true },
         st.obs.subscribers.map fun c => (c, true)) := by
    unfold StatefulObserver.notify
    simp [h]
  simp only [hnot, map_pair_filter_true, window_filter_empty, foldl_unsubscribe]

/-- `trigger` on an already-interacted state: the notification is
suppressed, nothing fires, and the window listeners are (re)removed. -/
theorem trigger_of_true (st : FIState) (h : st.obs.state = true) :
    trigger st = { obs := st.obs, window := [], fired := st.fired } := by
  unfold trigger
  have hnot : st.obs.notify true = (st.obs, []) := by
    unfold StatefulObserver.notify
    simp [h]
  simp only [hnot, List.filter_nil, List.map_nil, List.foldl_nil,
    window_filter_empty, List.append_nil]

/-- Invariant tracked for a callback `c` registered while the page had not
yet been interacted with: before interaction it is subscribed once and
unfired; once interaction happens it has fired exactly once and is
unsubscribed; and an interacted state has no window listeners left. -/
def FiredJ (c : Nat) (st : FIState) : Prop :=
  (st.obs.state = false → st.fired.count c = 0 ∧ st.obs.subscribers.count c = 1)
  ∧ (st.obs.state = true → st.fired.count c = 1 ∧ st.obs.subscribers.count c = 0)
  ∧ (st.obs.state = true → st.window = [])

/-- Invariant tracked for a callback `c` registered after interaction: the
state stays interacted and `c` stays fired exactly once. -/
def FiredK (c : Nat) (st : FIState) : Prop :=
  st.obs.state = true ∧ st.fired.count c = 1

/-- One occurrence of a different element contributes no count. -/
theorem count_singleton_ne (c d : Nat) (h : d ≠ c) : List.count c [d] = 0 := by
  rw [List.count_eq_zero]
  simp
  exact fun hh => h hh.symm

/-- `subscribe` keeps the state. -/
theorem subscribe_fst_state {S : Type} (obs : StatefulObserver S) (c : Nat) :
    (obs.subscribe c).1.state = obs.state := rfl

/-- `subscribe` does not change the count of a different callback. -/
theorem subscribe_count_other {S : Type} (obs : StatefulObserver S) (c d : Nat)
    (h : d ≠ c) :
    (obs.subscribe c).1.subscribers.count d = obs.subscribers.count d := by
  unfold StatefulObserver.subscribe
  by_cases hc : c ∈ obs.subscribers
  · simp [hc]
  · simp only [hc, if_false]
    rw [List.count_append, count_singleton_ne d c (fun hh => h hh.symm)]
    omega

/-- `onFirstInteraction` on an already-interacted module: the wrapper is
added, fires the user callback at once, and the registration throws (the
`unsubscribe` binding is hit before its initialization). -/
theorem onFirstInteraction_of_true (c : Nat) (st : FIState)
    (h : st.obs.state = true) :
    onFirstInteraction c st
      = ({ st with obs := (st.obs.subscribe c).1, fired := st.fired ++ [c] },
         true) := by
  unfold onFirstInteraction
  simp [h]

/-- `onFirstInteraction` before any interaction: the wrapper is added and the
immediate replay invocation does nothing. -/
theorem onFirstInteraction_of_false (c : Nat) (st : FIState)
    (h : st.obs.state = false) :
    onFirstInteraction c st
      = ({ st with obs := (st.obs.subscribe c).1 }, false) := by
  unfold onFirstInteraction
  simp [h]

/-- `FiredJ` is preserved by any operation that does not register `c`
itself. -/
theorem FiredJ_step (c : Nat) (st : FIState) (op : FIOp)
    (hop : ∀ d, op = FIOp.register d → d ≠ c)
    (hJ : FiredJ c st) : FiredJ c (applyFIOp st op) := by
  obtain ⟨h1, h2, h3⟩ := hJ
  cases op with
  | register d =>
    have hdc : d ≠ c := hop d rfl
    show FiredJ c (onFirstInteraction d st).1
    rcases hbs : st.obs.state with _ | _
    · rw [onFirstInteraction_of_false d st hbs]
      obtain ⟨hf, hsub⟩ := h1 hbs
      refine ⟨?_, ?_, ?_⟩
      · show (st.obs.subscribe d).1.state = false →
          st.fired.count c = 0 ∧ (st.obs.subscribe d).1.subscribers.count c = 1
        intro _
        refine ⟨hf, ?_⟩
        rw [subscribe_count_other st.obs d c (Ne.symm hdc)]
        exact hsub
      · show (st.obs.subscribe d).1.state = true →
          st.fired.count c = 1 ∧ (st.obs.subscribe d).1.subscribers.count c = 0
        intro h
        rw [subscribe_fst_state, hbs] at h
        cases h
      · show (st.obs.subscribe d).1.state = true → st.window = []
        intro h
        rw [subscribe_fst_state, hbs] at h
        cases h
    · rw [onFirstInteraction_of_true d st hbs]
      obtain ⟨hf, hsub⟩ := h2 hbs
      refine ⟨?_, ?_, ?_⟩
      · show (st.obs.subscribe d).1.state = false →
          (st.fired ++ [d]).count c = 0
            ∧ (st.obs.subscribe d).1.subscribers.count c = 1
        intro h
        rw [subscribe_fst_state, hbs] at h
        cases h
      · show (st.obs.subscribe d).1.state = true →
          (st.fired ++ [d]).count c = 1
            ∧ (st.obs.subscribe d).1.subscribers.count c = 0
        intro _
        refine ⟨?_, ?_⟩
        · rw [List.count_append, hf, count_singleton_ne c d hdc]
        · rw [subscribe_count_other st.obs d c (Ne.symm hdc)]
          exact hsub
      · show (st.obs.subscribe d).1.state = true → st.window = []
        intro _
        exact h3 hbs
  | dispatch k =>
    show FiredJ c (dispatchEvent k st)
    unfold dispatchEvent
    by_cases hk : k ∈ st.window
    · simp only [hk, if_true]
      rcases hbs : st.obs.state with _ | _
      · obtain ⟨hf, hsub⟩ := h1 hbs
        rw [trigger_of_false st hbs]
        have hmem : c ∈ st.obs.subscribers := by
          by_contra hnm
          rw [List.count_eq_zero_of_not_mem hnm] at hsub
          cases hsub
        refine ⟨?_, ?_, ?_⟩
        · intro h
          exact absurd h (by simp)
        · intro _
          refine ⟨?_, ?_⟩
          · show (st.fired ++ st.obs.subscribers).count c = 1
            rw [List.count_append, hf, hsub]
          · show (st.obs.subscribers.foldl List.erase st.obs.subscribers).count c = 0
            exact count_foldl_erase_of_mem c st.obs.subscribers st.obs.subscribers
              hmem hsub
        · intro _
          rfl
      · have : st.window = [] := h3 hbs
        rw [this] at hk
        cases hk
    · simpa [hk] using ⟨h1, h2, h3⟩

/-- `FiredK` is preserved by any operation that does not register `c`
itself. -/
theorem FiredK_step (c : Nat) (st : FIState) (op : FIOp)
    (hop : ∀ d, op = FIOp.register d → d ≠ c)
    (hK : FiredK c st) : FiredK c (applyFIOp st op) := by
  obtain ⟨hs, hf⟩ := hK
  cases op with
  | register d =>
    have hdc : d ≠ c := hop d rfl
    show FiredK c (onFirstInteraction d st).1
    rw [onFirstInteraction_of_true d st hs]
    refine ⟨hs, ?_⟩
    show (st.fired ++ [d]).count c = 1
    rw [List.count_append, hf, count_singleton_ne c d hdc]
  | dispatch k =>
    show FiredK c (dispatchEvent k st)
    unfold dispatchEvent
    by_cases hk : k ∈ st.window
    · simp only [hk, if_true]
      rw [trigger_of_true st hs]
      exact ⟨hs, hf⟩
    · simpa [hk] using ⟨hs, hf⟩

/-- `FiredJ` is preserved by any operation sequence avoiding `c`. -/
theorem FiredJ_runFIOps (c : Nat) (ops : List FIOp) :
    ∀ st : FIState, avoidsRegister c ops = true → FiredJ c st →
      FiredJ c (runFIOps st ops) := by
  induction ops with
  | nil => intro st _ hJ; exact hJ
  | cons op rest ih =>
    intro st hav hJ
    have hop : ∀ d, op = FIOp.register d → d ≠ c := by
      intro d hd
      subst hd
      unfold avoidsRegister at hav
      have := (Bool.and_eq_true _ _).mp hav
      simpa using this.1
    have hrest : avoidsRegister c rest = true := by
      cases op with
      | register d =>
        unfold avoidsRegister at hav
        exact ((Bool.and_eq_true _ _).mp hav).2
      | dispatch k => exact hav
    exact ih (applyFIOp st op) hrest (FiredJ_step c st op hop hJ)

/-- `FiredK` is preserved by any operation sequence avoiding `c`. -/
theorem FiredK_runFIOps (c : Nat) (ops : List FIOp) :
    ∀ st : FIState, avoidsRegister c ops = true → FiredK c st →
      FiredK c (runFIOps st ops) := by
  induction ops with
  | nil => intro st _ hK; exact hK
  | cons op rest ih =>
    intro st hav hK
    have hop : ∀ d, op = FIOp.register d → d ≠ c := by
      intro d hd
      subst hd
      unfold avoidsRegister at hav
      have := (Bool.and_eq_true _ _).mp hav
      simpa using this.1
    have hrest : avoidsRegister c rest = true := by
      cases op with
      | register d =>
        unfold avoidsRegister at hav
        exact ((Bool.and_eq_true _ _).mp hav).2
      | dispatch k => exact hav
    exact ih (applyFIOp st op) hrest (FiredK_step c st op hop hK)

/-- The argument of `addScriptToHead` (src/unnamed/part_005), reduced to the
only attribute the loader logic reads: the required `src`.  (The remaining
`Partial<HTMLScriptElement>` attributes are copied onto the element by
`Object.assign` and never read by the loader.) -/
structure ScriptAttributes where
  src : String
deriving DecidableEq

/-- The situation right after `addScriptToHead` returns: the script element
has been created and appended to the head inside the synchronous promise
executor, and the promise is still pending on `onload`/`onerror`. -/
structure PendingScript where
  head : List Node
  script : Node
  src : String
deriving DecidableEq

/-- Shallow embedding of `addScriptToHead` (src/unnamed/part_005 lines
5-15): `document.createElement('script')` yields the fresh node
`newScript`; `Object.assign(script, attributes)` records the `src`;
`document.head.appendChild(script)` runs synchronously inside the promise
executor, before the promise can settle. -/
def addScriptToHead (attributes : ScriptAttributes) (head : List Node)
    (newScript : Node) : PendingScript :=
  { head := appendChild head newScript,
    script := newScript,
    src := attributes.src }

/-- The message of the error built by the `onerror` handler. -/
def scriptErrorMessage (src : String) : String :=
  "Failed to load script with src: " ++ src

/-- The `onerror` path: the promise rejects with the src-bearing error; the
head is left exactly as it was after the append (no rollback). -/
def settleOnError (pending : PendingScript) : Except String Unit × List Node :=
  (.error (scriptErrorMessage pending.src), pending.head)

/-- The `onload` path: the promise resolves with no value. -/
def settleOnLoad (pending : PendingScript) : Except String Unit × List Node :=
  (.ok (), pending.head)

/-- A concrete parser used as an explicit input in the examples: every
document parses to a head with the single style node `1` and body node `9`. -/
def fixedParser : DOMParser :=
  { parseFromString := fun _ => { headStyles := [1], bodyNode := 9 } }

/-- Claim C2: for every fetched document, `appendExtraStyles` inserts every
style element found in the fetched head into the target head, in source
order, and invoking the returned rollback once removes exactly those
inserted nodes, leaving the target head identical (same nodes by reference)
to its state before the apply.  The style nodes of a freshly parsed document
are distinct objects not present in the live head, captured by the `Nodup`
and freshness hypotheses. -/
theorem appendExtraStyles_roundtrip (extraStyles targetHead : List Node)
    (hnd : extraStyles.Nodup)
    (hfresh : ∀ n ∈ extraStyles, n ∉ targetHead) :
    (appendExtraStyles extraStyles targetHead).1 = targetHead ++ extraStyles
    ∧ runRollback (appendExtraStyles extraStyles targetHead).1
        (appendExtraStyles extraStyles targetHead).2 = (targetHead, false) := by
  have h1 := foldl_appendChild_of_fresh extraStyles targetHead hnd hfresh
  refine ⟨h1, ?_⟩
  show runRollback (extraStyles.foldl appendChild targetHead) extraStyles = _
  rw [h1]
  exact runRollback_append extraStyles targetHead hnd hfresh

/-- Witness for C2 at a concrete input. -/
theorem appendExtraStyles_roundtrip_witness :
    ([2, 3] : List Node).Nodup
    ∧ (∀ n ∈ ([2, 3] : List Node), n ∉ ([0, 1] : List Node))
    ∧ ((appendExtraStyles [2, 3] [0, 1]).1 = [0, 1] ++ [2, 3]
       ∧ runRollback (appendExtraStyles [2, 3] [0, 1]).1
           (appendExtraStyles [2, 3] [0, 1]).2 = ([0, 1], false)) :=
  ⟨by decide, by decide,
   appendExtraStyles_roundtrip [2, 3] [0, 1] (by decide) (by decide)⟩

/-- Claim C3 counterexample: after `appendExtraStyles` has inserted the
style node `2` into the head `[0]` and the rollback has run once (restoring
`[0]` without throwing), running the rollback a second time THROWS — the
closure calls `removeChild(2)` on a head that no longer contains node `2`,
a DOM `NotFoundError` — so the second call is neither a no-op nor safe. -/
theorem rollback_second_call_throws :
    runRollback (appendExtraStyles [2] [0]).1 (appendExtraStyles [2] [0]).2
      = ([0], false)
    ∧ (runRollback
        (runRollback (appendExtraStyles [2] [0]).1 (appendExtraStyles [2] [0]).2).1
        (appendExtraStyles [2] [0]).2).2 = true := by
  decide

/-- Claim C3 (amended): invoking the rollback a second time is safe only
when the fetched head had no style elements (the `forEach` over an empty
set is a no-op); whenever at least one style node was inserted and removed,
the second invocation throws (`removeChild` of a node that is no longer a
child). -/
theorem rollback_second_call (extraStyles targetHead : List Node)
    (hnd : extraStyles.Nodup)
    (hfresh : ∀ n ∈ extraStyles, n ∉ targetHead) :
    (∀ anyHead : List Node, runRollback anyHead [] = (anyHead, false))
    ∧ (extraStyles ≠ [] →
        (runRollback
          (runRollback (appendExtraStyles extraStyles targetHead).1
            (appendExtraStyles extraStyles targetHead).2).1
          (appendExtraStyles extraStyles targetHead).2).2 = true) := by
  refine ⟨fun anyHead => rfl, ?_⟩
  intro hne
  have h1 := foldl_appendChild_of_fresh extraStyles targetHead hnd hfresh
  have hfirst : runRollback (appendExtraStyles extraStyles targetHead).1
      (appendExtraStyles extraStyles targetHead).2 = (targetHead, false) := by
    show runRollback (extraStyles.foldl appendChild targetHead) extraStyles = _
    rw [h1]
    exact runRollback_append extraStyles targetHead hnd hfresh
  rw [hfirst]
  cases extraStyles with
  | nil => exact absurd rfl hne
  | cons a t =>
    have ha : a ∉ targetHead := hfresh a (by simp)
    show (runRollback targetHead (a :: t)).2 = true
    rw [runRollback_missing_head targetHead a t ha]

/-- Witness for the amended C3 at a concrete input. -/
theorem rollback_second_call_witness :
    ([2] : List Node).Nodup
    ∧ (∀ n ∈ ([2] : List Node), n ∉ ([0] : List Node))
    ∧ ((∀ anyHead : List Node, runRollback anyHead [] = (anyHead, false))
       ∧ (([2] : List Node) ≠ [] →
           (runRollback
             (runRollback (appendExtraStyles [2] [0]).1
               (appendExtraStyles [2] [0]).2).1
             (appendExtraStyles [2] [0]).2).2 = true)) :=
  ⟨by decide, by decide, rollback_second_call [2] [0] (by decide) (by decide)⟩

/-- Claim C4 counterexample: a resolved response with the non-success status
404 is not rejected by `getClienPageAheadOfTime` — the status is never
examined, the body is parsed and the methods object returned — contradicting
the claim that prefetch fails on every non-success status (the specified
behavior `prefetchAsSpecified` would fail here). -/
theorem prefetch_ignores_status :
    isSuccessStatus 404 = false
    ∧ getClienPageAheadOfTime
        (.resolved { status := 404, bodyText := "not found" }) fixedParser
        = .ok { extraStyles := [1], fetchedBody := 9 }
    ∧ getClienPageAheadOfTime
        (.resolved { status := 404, bodyText := "not found" }) fixedParser
      ≠ prefetchAsSpecified
        (.resolved { status := 404, bodyText := "not found" }) fixedParser :=
  ⟨rfl, rfl, fun h => Except.noConfusion h⟩

/-- Claim C4 (amended): `getClienPageAheadOfTime` fails (rejects) exactly
when the underlying fetch rejects; the response status is never examined,
and every resolved response — success status or not — is parsed as HTML and
yields the apply/rollback methods object. -/
theorem prefetch_fails_iff_fetch_rejects (fetchOutcome : FetchOutcome)
    (parser : DOMParser) :
    (getClienPageAheadOfTime fetchOutcome parser = .error ()
      ↔ fetchOutcome = .rejected)
    ∧ ∀ r : FetchResponse,
        getClienPageAheadOfTime (.resolved r) parser
          = .ok { extraStyles := (parser.parseFromString r.bodyText).headStyles,
                  fetchedBody := (parser.parseFromString r.bodyText).bodyNode } := by
  refine ⟨⟨?_, ?_⟩, fun r => rfl⟩
  · intro h
    cases fetchOutcome with
    | rejected => rfl
    | resolved r => exact absurd h (fun hh => Except.noConfusion hh)
  · intro h
    subst h
    rfl

/-- Witness for the amended C4 at a concrete input. -/
theorem prefetch_fails_iff_fetch_rejects_witness :
    ((getClienPageAheadOfTime .rejected fixedParser = .error ()
        ↔ (FetchOutcome.rejected = .rejected))
     ∧ ∀ r : FetchResponse,
        getClienPageAheadOfTime (.resolved r) fixedParser
          = .ok { extraStyles := (fixedParser.parseFromString r.bodyText).headStyles,
                  fetchedBody := (fixedParser.parseFromString r.bodyText).bodyNode }) :=
  prefetch_fails_iff_fetch_rejects .rejected fixedParser

/-- Claim C5 counterexample: a hover over a hover-marked, not yet augmented
anchor whose prefetch fetch rejects makes the `mouseover` handler itself
reject — the listener has no try/catch, so the failure is NOT silently
absorbed: it escapes as an unhandled rejection of the async handler's
promise (modelled by the `Except.error` settlement). -/
theorem hover_prefetch_failure_escapes :
    (mouseoverHandler
        (.anchor { href := "/page-2", clientNavigation := some "hover",
                   cached := none })
        fixedParser .rejected).2 = .error () := rfl

/-- Claim C5 (amended): a failed hover prefetch is non-fatal for subsequent
behavior — the anchor is left exactly as it was (no augmentation is
installed, so a later click simply fetches afresh) — but the rejection does
escape the handler: the async `mouseover` listener's promise rejects, since
nothing in the handler catches it. -/
theorem hover_prefetch_failure_behavior (target : EventTarget)
    (parser : DOMParser) (a : AnchorData)
    (hmark : a.clientNavigation = some "hover") (hcache : a.cached = none) :
    (mouseoverHandler target parser .rejected).1 = target
    ∧ (mouseoverHandler (.anchor a) parser .rejected).2 = .error () := by
  constructor
  · cases target with
    | notAnchor => rfl
    | anchor b =>
      unfold mouseoverHandler
      by_cases hb : b.cached.isSome
      · simp [hb]
      · by_cases hm : b.clientNavigation ≠ some "hover"
        · simp [hb, hm]
        · simp [hb, hm, getClienPageAheadOfTime]
  · unfold mouseoverHandler
    simp [hmark, hcache, getClienPageAheadOfTime]

/-- Witness for the amended C5 at a concrete input. -/
theorem hover_prefetch_failure_behavior_witness :
    (({ href := "/page-2", clientNavigation := some "hover", cached := none }
        : AnchorData).clientNavigation = some "hover")
    ∧ (({ href := "/page-2", clientNavigation := some "hover", cached := none }
        : AnchorData).cached = none)
    ∧ ((mouseoverHandler
          (.anchor { href := "/page-2", clientNavigation := some "hover",
                     cached := none }) fixedParser .rejected).1
        = .anchor { href := "/page-2", clientNavigation := some "hover",
                    cached := none }
       ∧ (mouseoverHandler
          (.anchor { href := "/page-2", clientNavigation := some "hover",
                     cached := none }) fixedParser .rejected).2 = .error ()) :=
  ⟨rfl, rfl,
   hover_prefetch_failure_behavior
     (.anchor { href := "/page-2", clientNavigation := some "hover",
                cached := none })
     fixedParser _ rfl rfl⟩

/-- Claim C9: a click whose target is not an anchor, or an anchor with no
marker or an unrecognized marker value (anything other than `"click"` or
`"hover"`), produces no effects at all: no `preventDefault`, no cleanup, no
style insertion, no body replacement, no history push — and the page state
is untouched, so default navigation proceeds. -/
theorem unmarked_click_ignored (target : EventTarget) (parser : DOMParser)
    (fetchOutcome : FetchOutcome) (st : PageState)
    (h : ∀ a : AnchorData, target = .anchor a →
          a.clientNavigation ≠ some "click" ∧ a.clientNavigation ≠ some "hover") :
    clickHandler target parser fetchOutcome st
      = { state := st, trace := [], rejected := false } := by
  cases target with
  | notAnchor => rfl
  | anchor a =>
    have ha := h a rfl
    simp only [clickHandler]
    rw [if_pos ha]

/-- Witness for C9 at a concrete input: an anchor with the unrecognized
marker value `"prefetch"`. -/
theorem unmarked_click_ignored_witness :
    clickHandler
        (.anchor { href := "/page-2", clientNavigation := some "prefetch",
                   cached := none })
        fixedParser .rejected
        { head := [0], body := 1, currentCleanUp := none, history := [] }
      = { state := { head := [0], body := 1, currentCleanUp := none,
                     history := [] },
          trace := [], rejected := false } :=
  unmarked_click_ignored _ fixedParser .rejected _
    (by
      intro a h
      injection h with h2
      subst h2
      exact ⟨by decide, by decide⟩)

/-- Claim C1: a click on an anchor whose marker is `"click"` or `"hover"`,
when the prefetch resolves (cached augmentation or successful fetch) and the
pending cleanup's nodes are still in the head, performs — in code order —
`preventDefault`, exactly one invocation of the previously pending cleanup
(none if no cleanup was pending), the insertion of the new styles, exactly
one body replacement, and exactly one history push with the anchor's href;
the prior cleanup runs before the new styles are applied and before the new
rollback is stored, and afterwards the single cleanup slot holds exactly the
new rollback, so at most one pending cleanup ever exists. -/
theorem click_marked_navigation (a : AnchorData) (parser : DOMParser)
    (fetchOutcome : FetchOutcome) (st : PageState) (pr : PrefetchResult)
    (hmark : a.clientNavigation = some "click" ∨ a.clientNavigation = some "hover")
    (hres : resolvePrefetch a fetchOutcome parser = .ok pr)
    (hclean : ∀ old, st.currentCleanUp = some old →
        (runRollback st.head old).2 = false) :
    (clickHandler (.anchor a) parser fetchOutcome st).trace
      = [Effect.preventDefault]
          ++ (match st.currentCleanUp with
              | some _ => [Effect.cleanupInvoked]
              | none => ([] : List Effect))
          ++ pr.extraStyles.map Effect.styleAppended
          ++ [Effect.bodyReplaced pr.fetchedBody, Effect.historyPush a.href]
    ∧ (clickHandler (.anchor a) parser fetchOutcome st).trace.countP
        Effect.isPush = 1
    ∧ (clickHandler (.anchor a) parser fetchOutcome st).trace.countP
        Effect.isBodyReplace = 1
    ∧ (clickHandler (.anchor a) parser fetchOutcome st).trace.countP
        Effect.isCleanup
        = (match st.currentCleanUp with | some _ => 1 | none => 0)
    ∧ (clickHandler (.anchor a) parser fetchOutcome st).state.currentCleanUp
        = some pr.extraStyles
    ∧ (clickHandler (.anchor a) parser fetchOutcome st).state.history
        = st.history ++ [a.href]
    ∧ (clickHandler (.anchor a) parser fetchOutcome st).rejected = false := by
  have hcond : ¬(a.clientNavigation ≠ some "click"
      ∧ a.clientNavigation ≠ some "hover") := by
    rcases hmark with h | h <;> simp [h]
  cases hcu : st.currentCleanUp with
  | none =>
    have hred : clickHandler (.anchor a) parser fetchOutcome st
        = finishNavigation a pr st [Effect.preventDefault] := by
      simp only [clickHandler]
      rw [if_neg hcond, hres, hcu]
    rw [hred]
    unfold finishNavigation appendExtraStyles
    refine ⟨?_, ?_, ?_, ?_, ?_, ?_, ?_⟩ <;>
      simp [List.countP_append, List.countP_cons, List.countP_map,
        Function.comp, Effect.isPush, Effect.isBodyReplace, Effect.isCleanup]
  | some old =>
    have h2 : (runRollback st.head old).2 = false := hclean old hcu
    have hred : clickHandler (.anchor a) parser fetchOutcome st
        = finishNavigation a pr { st with head := (runRollback st.head old).1 }
            [Effect.preventDefault, Effect.cleanupInvoked] := by
      simp only [clickHandler]
      rw [if_neg hcond, hres, hcu]
      simp only [h2, Bool.false_eq_true, if_false]
    rw [hred]
    unfold finishNavigation appendExtraStyles
    refine ⟨?_, ?_, ?_, ?_, ?_, ?_, ?_⟩ <;>
      simp [List.countP_append, List.countP_cons, List.countP_map,
        Function.comp, Effect.isPush, Effect.isBodyReplace, Effect.isCleanup]

/-- Witness for C1 at a concrete input: an anchor marked `"click"` already
carrying a cached prefetch (style node `7`, body `9`), clicked on a page
whose head is `[1, 5]` with the cleanup for style `[5]` still pending. -/
theorem click_marked_navigation_witness :
    (clickHandler
        (.anchor { href := "/page-2", clientNavigation := some "click",
                   cached := some { extraStyles := [7], fetchedBody := 9 } })
        fixedParser .rejected
        { head := [1, 5], body := 0, currentCleanUp := some [5], history := [] }).trace
      = [Effect.preventDefault] ++ [Effect.cleanupInvoked]
          ++ ([7] : List Node).map Effect.styleAppended
          ++ [Effect.bodyReplaced 9, Effect.historyPush "/page-2"]
    ∧ (clickHandler
        (.anchor { href := "/page-2", clientNavigation := some "click",
                   cached := some { extraStyles := [7], fetchedBody := 9 } })
        fixedParser .rejected
        { head := [1, 5], body := 0, currentCleanUp := some [5],
          history := [] }).trace.countP Effect.isPush = 1
    ∧ (clickHandler
        (.anchor { href := "/page-2", clientNavigation := some "click",
                   cached := some { extraStyles := [7], fetchedBody := 9 } })
        fixedParser .rejected
        { head := [1, 5], body := 0, currentCleanUp := some [5],
          history := [] }).trace.countP Effect.isBodyReplace = 1
    ∧ (clickHandler
        (.anchor { href := "/page-2", clientNavigation := some "click",
                   cached := some { extraStyles := [7], fetchedBody := 9 } })
        fixedParser .rejected
        { head := [1, 5], body := 0, currentCleanUp := some [5],
          history := [] }).trace.countP Effect.isCleanup = 1
    ∧ (clickHandler
        (.anchor { href := "/page-2", clientNavigation := some "click",
                   cached := some { extraStyles := [7], fetchedBody := 9 } })
        fixedParser .rejected
        { head := [1, 5], body := 0, currentCleanUp := some [5],
          history := [] }).state.currentCleanUp = some [7]
    ∧ (clickHandler
        (.anchor { href := "/page-2", clientNavigation := some "click",
                   cached := some { extraStyles := [7], fetchedBody := 9 } })
        fixedParser .rejected
        { head := [1, 5], body := 0, currentCleanUp := some [5],
          history := [] }).state.history = [] ++ ["/page-2"]
    ∧ (clickHandler
        (.anchor { href := "/page-2", clientNavigation := some "click",
                   cached := some { extraStyles := [7], fetchedBody := 9 } })
        fixedParser .rejected
        { head := [1, 5], body := 0, currentCleanUp := some [5],
          history := [] }).rejected = false :=
  click_marked_navigation
    { href := "/page-2", clientNavigation := some "click",
      cached := some { extraStyles := [7], fetchedBody := 9 } }
    fixedParser .rejected
    { head := [1, 5], body := 0, currentCleanUp := some [5], history := [] }
    { extraStyles := [7], fetchedBody := 9 }
    (Or.inl rfl) rfl
    (by
      intro old h
      injection h with h2
      rw [← h2]
      decide)

/-- Claim C10: each call of `addScriptToHead` appends exactly one new script
element to the document head, synchronously (inside the promise executor,
hence before the promise can settle); when the script fails to load, the
promise rejects with an error whose message contains the source URL, and
the appended element is still in the head — the append is not rolled back
on error. -/
theorem addScriptToHead_effects (attributes : ScriptAttributes)
    (head : List Node) (newScript : Node) (hfresh : newScript ∉ head) :
    (addScriptToHead attributes head newScript).head = head ++ [newScript]
    ∧ (settleOnError (addScriptToHead attributes head newScript)).2
        = head ++ [newScript]
    ∧ (settleOnError (addScriptToHead attributes head newScript)).1
        = .error (scriptErrorMessage attributes.src)
    ∧ ∃ pre post : String,
        scriptErrorMessage attributes.src = pre ++ attributes.src ++ post := by
  have h1 : appendChild head newScript = head ++ [newScript] := by
    unfold appendChild
    rw [List.erase_of_not_mem hfresh]
  exact ⟨h1, h1, rfl,
    ⟨"Failed to load script with src: ", "", by simp [scriptErrorMessage]⟩⟩

/-- Witness for C10 at a concrete input. -/
theorem addScriptToHead_effects_witness :
    ((2 : Node) ∉ ([0, 1] : List Node))
    ∧ ((addScriptToHead { src := "https://cdn.example/m.js" } [0, 1] 2).head
        = [0, 1] ++ [2]
       ∧ (settleOnError (addScriptToHead { src := "https://cdn.example/m.js" }
            [0, 1] 2)).2 = [0, 1] ++ [2]
       ∧ (settleOnError (addScriptToHead { src := "https://cdn.example/m.js" }
            [0, 1] 2)).1
          = .error (scriptErrorMessage "https://cdn.example/m.js")
       ∧ ∃ pre post : String,
          scriptErrorMessage "https://cdn.example/m.js"
            = pre ++ "https://cdn.example/m.js" ++ post) :=
  ⟨by decide,
   addScriptToHead_effects { src := "https://cdn.example/m.js" } [0, 1] 2
     (by decide)⟩

/-- Claim C6: on a `StatefulObserver`, `subscribe` always triggers exactly
one immediate synchronous invocation of the new callback with the current
value; `notify` with an identical value is suppressed and leaves the state
untouched, while `notify` with a different value updates the state and
notifies each current subscriber exactly once; hence over any sequence of
`notify` calls a subscriber receives a notification if and only if the new
value differs from the immediately preceding value. -/
theorem observer_notify_iff_changed (S : Type) [DecidableEq S]
    (obs : StatefulObserver S) (c : Nat) (v : S) (vs : List S)
    (hc : obs.subscribers.count c = 1) :
    (∀ d : Nat, ∀ o : StatefulObserver S, (o.subscribe d).2 = [(d, o.getState)])
    ∧ (v = obs.state → obs.notify v = (obs, []))
    ∧ (v ≠ obs.state →
        (obs.notify v).1.state = v
        ∧ (obs.notify v).1.subscribers = obs.subscribers
        ∧ receivedBy c (obs.notify v).2 = [v])
    ∧ receivedBy c (obs.runNotifies vs).2 = changesFrom obs.state vs := by
  refine ⟨fun d o => rfl, ?_, ?_, receivedBy_runNotifies c vs obs hc⟩
  · intro hv
    unfold StatefulObserver.notify
    simp [hv]
  · intro hv
    have hnot : obs.notify v
        = ({ obs with state := v }, obs.subscribers.map fun d => (d, v)) := by
      unfold StatefulObserver.notify
      simp [hv]
    rw [hnot]
    refine ⟨rfl, rfl, ?_⟩
    show receivedBy c (obs.subscribers.map fun d => (d, v)) = [v]
    rw [receivedBy_map_pair c v obs.subscribers, hc]
    rfl

/-- Witness for C6 at a concrete input: observer holding `0` with subscriber
`3`, notified with the sequence `[0, 0, 1, 1, 2]` — the subscriber receives
exactly `[1, 2]`, the values at which the state changes. -/
theorem observer_notify_iff_changed_witness :
    (({ state := 0, subscribers := [3] } : StatefulObserver Nat).subscribers.count 3
      = 1)
    ∧ ((∀ d : Nat, ∀ o : StatefulObserver Nat, (o.subscribe d).2 = [(d, o.getState)])
       ∧ ((1 : Nat) = ({ state := 0, subscribers := [3] }
            : StatefulObserver Nat).state →
          StatefulObserver.notify { state := 0, subscribers := [3] } 1
            = ({ state := 0, subscribers := [3] }, []))
       ∧ ((1 : Nat) ≠ ({ state := 0, subscribers := [3] }
            : StatefulObserver Nat).state →
          (StatefulObserver.notify { state := 0, subscribers := [3] } 1).1.state = 1
          ∧ (StatefulObserver.notify { state := 0, subscribers := [3] } 1).1.subscribers
              = ({ state := 0, subscribers := [3] }
                  : StatefulObserver Nat).subscribers
          ∧ receivedBy 3 (StatefulObserver.notify
              { state := 0, subscribers := [3] } 1).2 = [1])
       ∧ receivedBy 3 (StatefulObserver.runNotifies
            { state := 0, subscribers := [3] } [0, 0, 1, 1, 2]).2
          = changesFrom ({ state := 0, subscribers := [3] }
              : StatefulObserver Nat).state [0, 0, 1, 1, 2]) :=
  ⟨by decide,
   observer_notify_iff_changed Nat { state := 0, subscribers := [3] } 3 1
     [0, 0, 1, 1, 2] (by decide)⟩

/-- Claim C8: dispatching a qualifying window event while its `trigger`
listener is attached sets the interaction state to `true` and removes the
listeners for ALL five event kinds (not just the kind that fired) — the
listener set becomes empty — and afterwards dispatching any further event of
any kind is a strict no-op: no listener runs and no state changes. -/
theorem first_interaction_removes_all_listeners (st : FIState) (k : EventKind)
    (hk : k ∈ st.window) :
    (dispatchEvent k st).obs.state = true
    ∧ (dispatchEvent k st).window = []
    ∧ ∀ y : EventKind,
        dispatchEvent y (dispatchEvent k st) = dispatchEvent k st := by
  have hstep : dispatchEvent k st = trigger st := by
    unfold dispatchEvent
    rw [if_pos hk]
  rcases hbs : st.obs.state with _ | _
  · rw [hstep, trigger_of_false st hbs]
    refine ⟨rfl, rfl, ?_⟩
    intro y
    unfold dispatchEvent
    simp
  · rw [hstep, trigger_of_true st hbs]
    refine ⟨hbs, rfl, ?_⟩
    intro y
    unfold dispatchEvent
    simp

/-- Witness for C8 at a concrete input: the initial module state with a
first `click`. -/
theorem first_interaction_removes_all_listeners_witness :
    (EventKind.click ∈ initialFI.window)
    ∧ ((dispatchEvent .click initialFI).obs.state = true
       ∧ (dispatchEvent .click initialFI).window = []
       ∧ ∀ y : EventKind,
          dispatchEvent y (dispatchEvent .click initialFI)
            = dispatchEvent .click initialFI) :=
  ⟨by decide,
   first_interaction_removes_all_listeners initialFI .click (by decide)⟩

/-- Claim C7: for a callback `c` registered through `onFirstInteraction`
(fresh: never fired, not subscribed), against any later operation sequence
that does not register `c` again: if the first interaction has already
occurred, `c` fires immediately and synchronously during registration and
never again; otherwise registration fires nothing, `c` fires at most once
overall, and whenever the interaction state has become `true`, `c` has
fired exactly once and has been automatically unsubscribed. -/
theorem onFirstInteraction_fires_exactly_once (st : FIState) (c : Nat)
    (ops : List FIOp)
    (hops : avoidsRegister c ops = true)
    (hfired : st.fired.count c = 0)
    (hsub : st.obs.subscribers.count c = 0) :
    (st.obs.state = true →
        (onFirstInteraction c st).1.fired = st.fired ++ [c]
        ∧ (runFIOps (onFirstInteraction c st).1 ops).fired.count c = 1)
    ∧ (st.obs.state = false →
        (onFirstInteraction c st).1.fired = st.fired
        ∧ (runFIOps (onFirstInteraction c st).1 ops).fired.count c ≤ 1
        ∧ ((runFIOps (onFirstInteraction c st).1 ops).obs.state = true →
            (runFIOps (onFirstInteraction c st).1 ops).fired.count c = 1
            ∧ (runFIOps (onFirstInteraction c st).1 ops).obs.subscribers.count c
                = 0)) := by
  constructor
  · intro hbs
    rw [onFirstInteraction_of_true c st hbs]
    have hK1 : FiredK c
        { st with obs := (st.obs.subscribe c).1, fired := st.fired ++ [c] } := by
      refine ⟨?_, ?_⟩
      · show (st.obs.subscribe c).1.state = true
        rw [subscribe_fst_state]
        exact hbs
      · show (st.fired ++ [c]).count c = 1
        rw [List.count_append, hfired]
        simp
    have hKend := FiredK_runFIOps c ops _ hops hK1
    exact ⟨rfl, hKend.2⟩
  · intro hbs
    rw [onFirstInteraction_of_false c st hbs]
    have hnotmem : c ∉ st.obs.subscribers := List.count_eq_zero.mp hsub
    have hsubeq : (st.obs.subscribe c).1.subscribers
        = st.obs.subscribers ++ [c] := by
      unfold StatefulObserver.subscribe
      simp [hnotmem]
    have hJ1 : FiredJ c { st with obs := (st.obs.subscribe c).1 } := by
      refine ⟨?_, ?_, ?_⟩
      · intro _
        refine ⟨hfired, ?_⟩
        show (st.obs.subscribe c).1.subscribers.count c = 1
        rw [hsubeq, List.count_append, hsub]
        simp
      · show (st.obs.subscribe c).1.state = true → _
        intro h
        rw [subscribe_fst_state, hbs] at h
        cases h
      · show (st.obs.subscribe c).1.state = true → _
        intro h
        rw [subscribe_fst_state, hbs] at h
        cases h
    have hJend := FiredJ_runFIOps c ops _ hops hJ1
    obtain ⟨j1, j2, j3⟩ := hJend
    refine ⟨rfl, ?_, ?_⟩
    · rcases hfs : (runFIOps { st with obs := (st.obs.subscribe c).1 } ops).obs.state
        with _ | _
      · rw [(j1 hfs).1]
        decide
      · rw [(j2 hfs).1]
    · intro hfs
      exact j2 hfs

/-- Witness for C7 at a concrete input: callback `0` registered on the
freshly loaded module, followed by a first `click`. -/
theorem onFirstInteraction_fires_exactly_once_witness :
    (avoidsRegister 0 [FIOp.dispatch .click] = true)
    ∧ initialFI.fired.count 0 = 0
    ∧ initialFI.obs.subscribers.count 0 = 0
    ∧ ((initialFI.obs.state = true →
          (onFirstInteraction 0 initialFI).1.fired = initialFI.fired ++ [0]
          ∧ (runFIOps (onFirstInteraction 0 initialFI).1
              [FIOp.dispatch .click]).fired.count 0 = 1)
       ∧ (initialFI.obs.state = false →
          (onFirstInteraction 0 initialFI).1.fired = initialFI.fired
          ∧ (runFIOps (onFirstInteraction 0 initialFI).1
              [FIOp.dispatch .click]).fired.count 0 ≤ 1
          ∧ ((runFIOps (onFirstInteraction 0 initialFI).1
                [FIOp.dispatch .click]).obs.state = true →
              (runFIOps (onFirstInteraction 0 initialFI).1
                [FIOp.dispatch .click]).fired.count 0 = 1
              ∧ (runFIOps (onFirstInteraction 0 initialFI).1
                  [FIOp.dispatch .click]).obs.subscribers.count 0 = 0))) :=
  ⟨by decide, by decide, by decide,
   onFirstInteraction_fires_exactly_once initialFI 0 [FIOp.dispatch .click]
     (by decide) (by decide) (by decide)⟩
